import Mathlib

/-!
A shallow embedding, in Lean 4, of the expression-language core of this
repository (package `pyscheme`): the shared expression tree (`atoms.py`,
`typing.py`), the hierarchical `Environment` with its definition map, value
cache and update-listener mechanism (`core.py`), the tree-walking evaluator
with its special forms (`core.py`), the algebraic front end
(`parse_algebra.py`), the symbolic front end (`parse_scheme.py`), the grammar
dispatcher (`parse.py`) and the root environment (`special_forms.py`).

Python's mutable object graph of `Environment` nodes is embedded as an arena:
a store holds every environment node ever created, indexed by creation order;
a node refers to its parent by index.  Python-level exceptions
(`SyntaxError`, `KeyError`, `ValueError`, `TypeError`) become `Except` values.
Recursive procedures are fuel-bounded; running out of fuel is a distinct
outcome (`Err.outOfFuel`) that never coincides with a Python-level exception.
-/

namespace PyScheme

/-- Python-level exceptions raised by the embedded code, plus fuel
exhaustion of the bounded model. -/
inductive Err where
  /-- `KeyError` carrying the unresolved symbol
      (`Environment.__getitem__` / `__setitem__`). -/
  | keyError (s : String)
  /-- `SyntaxError` raised by a front end; the payload names the expected
      construct (`error(expected)` in `parse_algebra.parse`) or the kind of
      failure for the tokenizers and `parse_scheme`. -/
  | syntaxError (expected : String)
  /-- `TypeError` (e.g. calling a non-callable). -/
  | typeError
  /-- `ValueError` (e.g. tuple-unpacking a malformed special form). -/
  | valueError
  /-- `IndexError` (e.g. `x[0]` on an empty list in `evaluate`). -/
  | indexError
  /-- The bounded model ran out of fuel (no Python counterpart). -/
  | outOfFuel
  /-- An environment index outside the store (no Python counterpart;
      unreachable for stores built by the constructors below). -/
  | badEnv
deriving DecidableEq, Repr

/-- The shared expression tree (`pyscheme.typing.Expression`): a number, a
`Symbol` (a `str` subclass), a Python list of expressions, or one of the
run-time values an evaluation can produce: a user `Procedure` (closure over
parameter names, body, and the index of its defining environment), a
host-supplied builtin (identified by the name it is installed under; the
root-environment content is host data, `spec.md` section 1), a Python `bool`,
or Python `None` (returned by the `define` and `set!` branches of
`evaluate`).  Python floats are carried as their uninterpreted source text
(`floatRaw`); no claim computes with a float value. -/
inductive Expr where
  | int (n : Int)
  | floatRaw (s : String)
  | bool (b : Bool)
  | none
  | sym (s : String)
  | list (xs : List Expr)
  | proc (parms : List String) (body : Expr) (envIdx : Nat)
  | builtin (name : String)

/-- One `Environment` node (`core.py`, class `Environment`): optional parent
(by arena index), `_definition_map`, `_value_map`, and `_update_listeners`
(the indices of environments whose `_handle_update` was registered with this
node and is still alive).  Maps are association lists with one entry per
key, updated in place like Python dicts. -/
structure EnvNode where
  parent : Option Nat
  defs : List (String × Expr)
  vals : List (String × Expr)
  listeners : List Nat

/-- The arena of every `Environment` created so far; a node's index is its
creation rank. -/
structure Store where
  envs : List EnvNode

/-- Dict update: replace the binding of `s` if present, else append it. -/
def setKey (m : List (String × Expr)) (s : String) (e : Expr) :
    List (String × Expr) :=
  match m with
  | [] => [(s, e)]
  | (k, v) :: rest =>
      if k = s then (s, e) :: rest else (k, v) :: setKey rest s e

/-- Dict lookup (`s in m` / `m[s]`). -/
def getKey (m : List (String × Expr)) (s : String) : Option Expr :=
  match m with
  | [] => Option.none
  | (k, v) :: rest => if k = s then some v else getKey rest s

def getEnv (store : Store) (i : Nat) : Option EnvNode :=
  store.envs.get? i

/-- Replace node `i` of the store by `node`. -/
def putEnv (store : Store) (i : Nat) (node : EnvNode) : Store :=
  ⟨store.envs.set i node⟩

/-- Write `s ↦ e` into the value cache of node `i`
(the single dict store `self._value_map[s] = ...`). -/
def setVal (store : Store) (i : Nat) (s : String) (e : Expr) : Store :=
  match getEnv store i with
  | Option.none => store
  | some node => putEnv store i { node with vals := setKey node.vals s e }

/-- Write `s ↦ e` into the definition map of node `i`. -/
def setDef (store : Store) (i : Nat) (s : String) (e : Expr) : Store :=
  match getEnv store i with
  | Option.none => store
  | some node => putEnv store i { node with defs := setKey node.defs s e }

/-- `Environment.add` (`core.py` lines 94-95): insert directly into the
local value cache. -/
def add (store : Store) (i : Nat) (s : String) (e : Expr) : Store :=
  setVal store i s e

/-- `Environment.update` (`core.py` lines 97-99): bulk `add`. -/
def update (store : Store) (i : Nat) (pairs : List (String × Expr)) : Store :=
  pairs.foldl (fun st p => setVal st i p.1 p.2) store

/-- `parent.add_update_listener(self._handle_update)` as executed by
CPython.  `_update_listeners` is a `weakref.WeakSet`, and the bound method
`self._handle_update` passed to `add_update_listener` is a temporary with no
other strong reference, so it is reclaimed the moment `__init__` returns
and its weak reference is dropped from the set: observationally the
listener set stays empty forever.  The store is therefore unchanged. -/
def addUpdateListener (store : Store) (_parentIdx _childIdx : Nat) : Store :=
  store

/-- `Environment.__init__` (`core.py` lines 30-40): append a fresh node and,
when a parent is given, register the new node's update handler with it
(see `addUpdateListener` for why the registration does not survive).
Returns the new node's index and the new store. -/
def mkEnv (store : Store) (parent : Option Nat)
    (values defs : List (String × Expr)) : Nat × Store :=
  let idx := store.envs.length
  let store' : Store := ⟨store.envs ++ [⟨parent, defs, values, []⟩]⟩
  match parent with
  | some p => (idx, addUpdateListener store' p idx)
  | Option.none => (idx, store')

/-- The intended registration (what `add_update_listener` would do if the
handler were strongly referenced, e.g. via `weakref.WeakMethod` or a direct
child list): record the child index in the parent's listener list.  Used
only to contrast the intended invalidation cascade with the actual one. -/
def addUpdateListenerLive (store : Store) (parentIdx childIdx : Nat) : Store :=
  match getEnv store parentIdx with
  | Option.none => store
  | some node =>
      putEnv store parentIdx { node with listeners := node.listeners ++ [childIdx] }

/-- `Environment.__init__` with the intended (live) listener registration. -/
def mkEnvLive (store : Store) (parent : Option Nat)
    (values defs : List (String × Expr)) : Nat × Store :=
  let idx := store.envs.length
  let store' : Store := ⟨store.envs ++ [⟨parent, defs, values, []⟩]⟩
  match parent with
  | some p => (idx, addUpdateListenerLive store' p idx)
  | Option.none => (idx, store')

/-- `Environment._handle_update` (`core.py` lines 45-51): clear this node's
entire value cache, then notify every registered listener, which does the
same recursively (`_notify_listeners`).  The `modified_symbols` argument is
ignored by the handler, so it is not modelled. -/
def handleUpdate (fuel : Nat) (store : Store) (i : Nat) : Store :=
  match fuel with
  | 0 => store
  | fuel + 1 =>
      match getEnv store i with
      | Option.none => store
      | some node =>
          let store1 := putEnv store i { node with vals := [] }
          node.listeners.foldl (fun st l => handleUpdate fuel st l) store1

/-- `Environment.define` (`core.py` lines 101-105): install or replace a
definition, then run the update handler (clear own cache, notify
listeners). -/
def define (fuel : Nat) (store : Store) (i : Nat) (s : String) (e : Expr) :
    Store :=
  handleUpdate fuel (setDef store i s e) i

/-- `Environment.__setitem__` (`core.py` lines 79-86, the `set!` target
resolution): if `s` is a cached value here and not also a definition here,
overwrite it here; otherwise defer to the parent; at a parentless root,
raise `KeyError`. -/
def setItem (fuel : Nat) (store : Store) (i : Nat) (s : String) (v : Expr) :
    Except Err Store :=
  match fuel with
  | 0 => Except.error Err.outOfFuel
  | fuel + 1 =>
      match getEnv store i with
      | Option.none => Except.error Err.badEnv
      | some node =>
          if (getKey node.vals s).isSome && (getKey node.defs s).isNone then
            Except.ok (setVal store i s v)
          else
            match node.parent with
            | some p => setItem fuel store p s v
            | Option.none => Except.error (Err.keyError s)

/-- The node `__setitem__` writes to: the nearest environment in the parent
chain, starting at `i`, where `s` exists as a cached value and not as a
definition.  This is a pure (non-mutating) restatement of the chain walk of
`__setitem__`, used to characterise it. -/
def nearestEligible (fuel : Nat) (store : Store) (i : Nat) (s : String) :
    Option Nat :=
  match fuel with
  | 0 => Option.none
  | fuel + 1 =>
      match getEnv store i with
      | Option.none => Option.none
      | some node =>
          if (getKey node.vals s).isSome && (getKey node.defs s).isNone then
            some i
          else
            match node.parent with
            | some p => nearestEligible fuel store p s
            | Option.none => Option.none

/-- Every node's parent index is smaller than its own index.  This holds for
every store built with `mkEnv` from the empty store, and makes the parent
chain finite.  Stated as a boolean so concrete instances evaluate. -/
def wfStore (store : Store) : Bool :=
  (List.range store.envs.length).all fun j =>
    match getEnv store j with
    | Option.none => true
    | some node =>
        match node.parent with
        | Option.none => true
        | some p => p < j


/-- Zero-valued float literal shapes (`0`, `0.0`, `00e7`, `.0`, `-0.` ...):
every digit of the mantissa is `0`.  Used only for Python truthiness of a
float literal. -/
def floatTextIsZero (s : String) : Bool :=
  let noSign := match s.data with
    | '+' :: r => r
    | '-' :: r => r
    | r => r
  let mantissa := noSign.takeWhile (fun c => c ≠ 'e' ∧ c ≠ 'E')
  mantissa.all (fun c => ¬ c.isDigit ∨ c = '0') &&
    mantissa.any (fun c => c.isDigit)

/-- Python truthiness (`bool(value)`) over the value variants the evaluator
can produce: zero numbers, the empty string/symbol, the empty list, `False`
and `None` are falsy; procedures and builtins are truthy. -/
def truthy (v : Expr) : Bool :=
  match v with
  | Expr.int n => n ≠ 0
  | Expr.floatRaw s => ¬ floatTextIsZero s
  | Expr.bool b => b
  | Expr.none => false
  | Expr.sym s => s ≠ ""
  | Expr.list xs => ¬ xs.isEmpty
  | Expr.proc _ _ _ => true
  | Expr.builtin _ => true

/-- Semantics of the host builtins actually given arithmetic meaning in this
development (`operator.add/sub/mul` on integers).  Every other builtin of
`make_root_environment` is host data whose behaviour is out of the core's
scope (`spec.md` sections 1 and 6); applying one is modelled as an opaque
host failure, and no claim exercises one. -/
def applyBuiltin (name : String) (args : List Expr) : Except Err Expr :=
  match name, args with
  | "+", [Expr.int a, Expr.int b] => Except.ok (Expr.int (a + b))
  | "-", [Expr.int a, Expr.int b] => Except.ok (Expr.int (a - b))
  | "*", [Expr.int a, Expr.int b] => Except.ok (Expr.int (a * b))
  | _, _ => Except.error Err.typeError

mutual

/-- `evaluate` (`core.py` lines 122-157): dispatch on the shape of the
expression; special forms `quote`, `if`, `define`, `set!`, `lambda` are
recognised (in source order) when the head is the corresponding `Symbol`,
anything else is a procedure call.  Mis-shaped special forms raise
`ValueError` (Python tuple unpacking); `evaluate([])` raises `IndexError`
(`x[0]`).  A `define`/`set!`/`lambda` whose variable or parameter position
is not built from `Symbol`s is modelled as `TypeError`; the Python code
would accept some such values as plain dict keys, but no symbol lookup can
ever reach them and no claim exercises this. -/
def evaluate (fuel : Nat) (x : Expr) (i : Nat) (store : Store) :
    Except Err (Expr × Store) :=
  match fuel with
  | 0 => Except.error Err.outOfFuel
  | fuel + 1 =>
      match x with
      | Expr.sym s => getItem fuel store i s
      | Expr.list xs =>
          match xs with
          | [] => Except.error Err.indexError
          | Expr.sym "quote" :: rest =>
              match rest with
              | [e] => Except.ok (e, store)
              | _ => Except.error Err.valueError
          | Expr.sym "if" :: rest =>
              match rest with
              | [test, conseq, alt] =>
                  match evaluate fuel test i store with
                  | Except.error e => Except.error e
                  | Except.ok (tv, store1) =>
                      evaluate fuel (if truthy tv then conseq else alt) i store1
              | _ => Except.error Err.valueError
          | Expr.sym "define" :: rest =>
              match rest with
              | [Expr.sym var, e] =>
                  match evaluate fuel e i store with
                  | Except.error err => Except.error err
                  | Except.ok (v, store1) =>
                      Except.ok (Expr.none, add store1 i var v)
              | [_, _] => Except.error Err.typeError
              | _ => Except.error Err.valueError
          | Expr.sym "set!" :: rest =>
              match rest with
              | [Expr.sym var, e] =>
                  match evaluate fuel e i store with
                  | Except.error err => Except.error err
                  | Except.ok (v, store1) =>
                      match setItem fuel store1 i var v with
                      | Except.error err => Except.error err
                      | Except.ok store2 => Except.ok (Expr.none, store2)
              | [_, _] => Except.error Err.typeError
              | _ => Except.error Err.valueError
          | Expr.sym "lambda" :: rest =>
              match rest with
              | [Expr.list ps, body] =>
                  match symNames ps with
                  | some parms => Except.ok (Expr.proc parms body i, store)
                  | Option.none => Except.error Err.typeError
              | [_, _] => Except.error Err.typeError
              | _ => Except.error Err.valueError
          | headExpr :: argExprs =>
              match evaluate fuel headExpr i store with
              | Except.error e => Except.error e
              | Except.ok (procv, store1) =>
                  match evalArgs fuel argExprs i store1 with
                  | Except.error e => Except.error e
                  | Except.ok (args, store2) => applyProc fuel store2 procv args
      | v => Except.ok (v, store)

/-- Parameter lists must be lists of `Symbol`s to be bindable. -/
def symNames (ps : List Expr) : Option (List String) :=
  match ps with
  | [] => some []
  | Expr.sym s :: rest =>
      match symNames rest with
      | some ss => some (s :: ss)
      | Option.none => Option.none
  | _ => Option.none

/-- The argument loop of the procedure-call branch
(`args = [evaluate(arg, env) for arg in x[1:]]`): left to right, threading
the store. -/
def evalArgs (fuel : Nat) (xs : List Expr) (i : Nat) (store : Store) :
    Except Err (List Expr × Store) :=
  match fuel with
  | 0 => Except.error Err.outOfFuel
  | fuel + 1 =>
      match xs with
      | [] => Except.ok ([], store)
      | a :: rest =>
          match evaluate fuel a i store with
          | Except.error e => Except.error e
          | Except.ok (v, store1) =>
              match evalArgs fuel rest i store1 with
              | Except.error e => Except.error e
              | Except.ok (vs, store2) => Except.ok (v :: vs, store2)

/-- `proc(*args)`: a user `Procedure.__call__` (`core.py` lines 118-119)
evaluates the stored body in a brand-new environment whose parent is the
procedure's captured defining environment and whose initial value cache is
`zip(self.parms, args)` — `zip` stops at the shorter sequence, so no arity
check of any kind happens.  A builtin goes to the host; anything else is a
`TypeError` (not callable). -/
def applyProc (fuel : Nat) (store : Store) (procv : Expr) (args : List Expr) :
    Except Err (Expr × Store) :=
  match fuel with
  | 0 => Except.error Err.outOfFuel
  | fuel + 1 =>
      match procv with
      | Expr.proc parms body envIdx =>
          let created := mkEnv store (some envIdx) (List.zip parms args) []
          evaluate fuel body created.1 created.2
      | Expr.builtin name =>
          match applyBuiltin name args with
          | Except.error e => Except.error e
          | Except.ok v => Except.ok (v, store)
      | _ => Except.error Err.typeError

/-- `Environment.__getitem__` (`core.py` lines 63-77): serve from the local
value cache; else evaluate a local definition in a throwaway child
environment; else ask the parent; else `KeyError`.  Whatever was obtained
from a definition or from the parent is cached locally before returning. -/
def getItem (fuel : Nat) (store : Store) (i : Nat) (s : String) :
    Except Err (Expr × Store) :=
  match fuel with
  | 0 => Except.error Err.outOfFuel
  | fuel + 1 =>
      match getEnv store i with
      | Option.none => Except.error Err.badEnv
      | some node =>
          match getKey node.vals s with
          | some v => Except.ok (v, store)
          | Option.none =>
              match getKey node.defs s with
              | some defExpr =>
                  let created := mkEnv store (some i) [] []
                  match evaluate fuel defExpr created.1 created.2 with
                  | Except.error e => Except.error e
                  | Except.ok (v, store2) => Except.ok (v, setVal store2 i s v)
              | Option.none =>
                  match node.parent with
                  | some p =>
                      match getItem fuel store p s with
                      | Except.error e => Except.error e
                      | Except.ok (v, store2) => Except.ok (v, setVal store2 i s v)
                  | Option.none => Except.error (Err.keyError s)

end

/-- `Environment.evaluate` (`core.py` lines 57-61): evaluate the expression
in a fresh child environment of `i`. -/
def envEvaluate (fuel : Nat) (store : Store) (i : Nat) (x : Expr) :
    Except Err (Expr × Store) :=
  let created := mkEnv store (some i) [] []
  evaluate fuel x created.1 created.2

/-- Value projection of an evaluation (drop the final store). -/
def evalValue (fuel : Nat) (x : Expr) (i : Nat) (store : Store) :
    Except Err Expr :=
  (evaluate fuel x i store).map Prod.fst

/-- Value projection of `Environment.evaluate`. -/
def envEvalValue (fuel : Nat) (store : Store) (i : Nat) (x : Expr) :
    Except Err Expr :=
  (envEvaluate fuel store i x).map Prod.fst

/-- Value projection of `Environment.__getitem__`. -/
def lookupValue (fuel : Nat) (store : Store) (i : Nat) (s : String) :
    Except Err Expr :=
  (getItem fuel store i s).map Prod.fst

/-- The store with no environments yet. -/
def emptyStore : Store := ⟨[]⟩

/-! ## Atom model (`atoms.py`) -/

/-- A run of digits possibly containing single underscores between digits,
as accepted inside a Python `int()`/`float()` literal (`"1_0"` is `10`,
`"1__0"`, `"_1"`, `"1_"` are rejected). -/
def intBodyTail (cs : List Char) : Bool :=
  match cs with
  | [] => true
  | '_' :: c :: r => c.isDigit && intBodyTail r
  | ['_'] => false
  | c :: r => c.isDigit && intBodyTail r

/-- Valid unsigned integer body: nonempty, starts with a digit. -/
def intBodyOk (cs : List Char) : Bool :=
  match cs with
  | [] => false
  | c :: r => c.isDigit && intBodyTail r

/-- Numeric value of a digit-and-underscore run (underscores skipped). -/
def digitsValue (cs : List Char) : Int :=
  cs.foldl (fun a c => if c.isDigit then 10 * a + (Int.ofNat (c.toNat - 48)) else a) 0

/-- `int(token)` on a whitespace-free token: optional sign, then a valid
digit body. -/
def pyIntOfToken (s : String) : Option Int :=
  match s.data with
  | '+' :: r => if intBodyOk r then some (digitsValue r) else Option.none
  | '-' :: r => if intBodyOk r then some (-(digitsValue r)) else Option.none
  | r => if intBodyOk r then some (digitsValue r) else Option.none

/-- Split a character list at the first character satisfying `p`. -/
def splitAtChar (p : Char → Bool) (cs : List Char) :
    Option (List Char × List Char) :=
  match cs with
  | [] => Option.none
  | c :: r =>
      if p c then some ([], r)
      else
        match splitAtChar p r with
        | some (a, b) => some (c :: a, b)
        | Option.none => Option.none

/-- The mantissa shapes `float()` accepts: `digits`, `digits.`,
`digits.digits`, `.digits`. -/
def mantissaOk (cs : List Char) : Bool :=
  match splitAtChar (fun c => c = '.') cs with
  | Option.none => intBodyOk cs
  | some (before, after) =>
      match before, after with
      | [], [] => false
      | [], a => intBodyOk a
      | b, [] => intBodyOk b
      | b, a => intBodyOk b && intBodyOk a

/-- Shape test for `float(token)` on a whitespace-free token: optional sign,
then a mantissa with optional exponent, or one of the special words
`inf`/`infinity`/`nan` (case-insensitive).  The value itself stays
uninterpreted (`Expr.floatRaw`). -/
def pyFloatShapeOk (s : String) : Bool :=
  let cs := match s.data with
    | '+' :: r => r
    | '-' :: r => r
    | r => r
  let low := cs.map Char.toLower
  if low = "inf".data || low = "infinity".data || low = "nan".data then true
  else
    match splitAtChar (fun c => c = 'e' || c = 'E') cs with
    | Option.none => mantissaOk cs
    | some (mant, expPart) =>
        let expBody := match expPart with
          | '+' :: r => r
          | '-' :: r => r
          | r => r
        mantissaOk mant && intBodyOk expBody

/-- `atoms.atom`: numbers become numbers (first `int`, then `float`); every
other token is a `Symbol`. -/
def atom (s : String) : Expr :=
  match pyIntOfToken s with
  | some n => Expr.int n
  | Option.none =>
      if pyFloatShapeOk s then Expr.floatRaw s else Expr.sym s

/-! ## Algebraic front end (`parse_algebra.py`) -/

/-- Tokens of the algebraic front end (`TokenType` plus the value). -/
inductive ATok where
  | op (c : Char)
  | num (e : Expr)
  | oparen
  | cparen
  | endTok

/-- `\s` on ASCII input. -/
def isWsChar (c : Char) : Bool :=
  c = ' ' || c = '\t' || c = '\n' || c = '\r' || c = '\x0b' || c = '\x0c'

/-- The operator class `[+*/^-]`. -/
def isOpChar (c : Char) : Bool :=
  c = '+' || c = '*' || c = '/' || c = '^' || c = '-'

/-- `\w` on ASCII input. -/
def isWordChar (c : Char) : Bool :=
  c.isAlphanum || c = '_'

/-- `tokenize` of `parse_algebra.py`: skip whitespace; an operator
character, a maximal word-character run (classified by `atom`), or a
parenthesis become tokens; any other character raises `SyntaxError`.  The
stream is terminated by an explicit end-of-input token.  (The Python
tokenizer is a generator consumed lazily; it is modelled eagerly.  The only
observable difference is *which* `SyntaxError` surfaces when both an
unexpected character and a parse failure are present; no claim
distinguishes them.)  Fuel-bounded (each step consumes at least one
character, so `cs.length + 1` always suffices). -/
def tokenizeAlgAux (fuel : Nat) (cs : List Char) : Except Err (List ATok) :=
  match fuel with
  | 0 => Except.error Err.outOfFuel
  | fuel + 1 =>
      match cs with
      | [] => Except.ok [ATok.endTok]
      | c :: rest =>
          if isWsChar c then tokenizeAlgAux fuel rest
          else if isOpChar c then
            (tokenizeAlgAux fuel rest).map (fun ts => ATok.op c :: ts)
          else if isWordChar c then
            (tokenizeAlgAux fuel (rest.dropWhile isWordChar)).map
              (fun ts =>
                ATok.num (atom (String.mk (c :: rest.takeWhile isWordChar))) :: ts)
          else if c = '(' then
            (tokenizeAlgAux fuel rest).map (fun ts => ATok.oparen :: ts)
          else if c = ')' then
            (tokenizeAlgAux fuel rest).map (fun ts => ATok.cparen :: ts)
          else Except.error (Err.syntaxError "character")

def tokenizeAlg (cs : List Char) : Except Err (List ATok) :=
  tokenizeAlgAux (cs.length + 1) cs

mutual

/-- `parse.term` (`parse_algebra.py` lines 87-100): a number token, or a
parenthesised addition. -/
def term (fuel : Nat) (ts : List ATok) : Except Err (Expr × List ATok) :=
  match fuel with
  | 0 => Except.error Err.outOfFuel
  | fuel + 1 =>
      match ts with
      | ATok.num v :: rest => Except.ok (v, rest)
      | ATok.oparen :: rest =>
          match addition fuel rest with
          | Except.error e => Except.error e
          | Except.ok (tree, r1) =>
              match r1 with
              | ATok.cparen :: r2 => Except.ok (tree, r2)
              | _ => Except.error (Err.syntaxError "cparen")
      | _ => Except.error (Err.syntaxError "term")

/-- `parse.exponentiation` (lines 102-109): right-associative `^`. -/
def exponentiation (fuel : Nat) (ts : List ATok) :
    Except Err (Expr × List ATok) :=
  match fuel with
  | 0 => Except.error Err.outOfFuel
  | fuel + 1 =>
      match term fuel ts with
      | Except.error e => Except.error e
      | Except.ok (left, r1) =>
          match r1 with
          | ATok.op '^' :: r2 =>
              match exponentiation fuel r2 with
              | Except.error e => Except.error e
              | Except.ok (right, r3) =>
                  Except.ok (Expr.list [Expr.sym "^", left, right], r3)
          | _ => Except.ok (left, r1)

/-- `parse.multiplication` (lines 111-118).  Exactly as in the source:
`t = token` is bound once, *before* the loop, so `t.value` names the first
operator for every later iteration; and each iteration parses one
exponentiation into the discarded temporary `right` and then parses
*again* for the operand actually stored — both parses consume the token
stream. -/
def multiplication (fuel : Nat) (ts : List ATok) :
    Except Err (Expr × List ATok) :=
  match fuel with
  | 0 => Except.error Err.outOfFuel
  | fuel + 1 =>
      match exponentiation fuel ts with
      | Except.error e => Except.error e
      | Except.ok (left, r1) =>
          match r1 with
          | ATok.op c :: _ => multLoop fuel c left r1
          | _ => Except.ok (left, r1)

/-- The `while match(OP, '*/')` loop of `multiplication`; `op0` is the
operator captured before the loop. -/
def multLoop (fuel : Nat) (op0 : Char) (left : Expr) (ts : List ATok) :
    Except Err (Expr × List ATok) :=
  match fuel with
  | 0 => Except.error Err.outOfFuel
  | fuel + 1 =>
      match ts with
      | ATok.op c :: rest =>
          if c = '*' || c = '/' then
            match exponentiation fuel rest with
            | Except.error e => Except.error e
            | Except.ok (_right, r1) =>
                match exponentiation fuel r1 with
                | Except.error e => Except.error e
                | Except.ok (second, r2) =>
                    multLoop fuel op0
                      (Expr.list [Expr.sym (String.mk [op0]), left, second]) r2
          else Except.ok (left, ts)
      | _ => Except.ok (left, ts)

/-- `parse.addition` (lines 120-126).  As in the source, `t = token` is
bound once before the loop, so every iteration reuses the first operator
symbol. -/
def addition (fuel : Nat) (ts : List ATok) : Except Err (Expr × List ATok) :=
  match fuel with
  | 0 => Except.error Err.outOfFuel
  | fuel + 1 =>
      match multiplication fuel ts with
      | Except.error e => Except.error e
      | Except.ok (left, r1) =>
          match r1 with
          | ATok.op c :: _ => addLoop fuel c left r1
          | _ => Except.ok (left, r1)

/-- The `while match(OP, '+-')` loop of `addition`; `op0` is the operator
captured before the loop. -/
def addLoop (fuel : Nat) (op0 : Char) (left : Expr) (ts : List ATok) :
    Except Err (Expr × List ATok) :=
  match fuel with
  | 0 => Except.error Err.outOfFuel
  | fuel + 1 =>
      match ts with
      | ATok.op c :: rest =>
          if c = '+' || c = '-' then
            match multiplication fuel rest with
            | Except.error e => Except.error e
            | Except.ok (right, r1) =>
                addLoop fuel op0
                  (Expr.list [Expr.sym (String.mk [op0]), left, right]) r1
          else Except.ok (left, ts)
      | _ => Except.ok (left, ts)

end

/-- `parse_algebra.parse` (lines 128-131): one addition, then the current
token must be the end-of-input marker, otherwise `SyntaxError`. -/
def parseAlgTokens (fuel : Nat) (ts : List ATok) : Except Err Expr :=
  match addition fuel ts with
  | Except.error e => Except.error e
  | Except.ok (tree, rest) =>
      match rest with
      | ATok.endTok :: _ => Except.ok tree
      | _ => Except.error (Err.syntaxError "end of input")

/-- Enough fuel for a token list: the recursion consumes a token at least
every four nested calls. -/
def algFuel (ts : List ATok) : Nat :=
  4 * ts.length + 8

/-- `parse_algebra.parse_expression`: tokenize, then parse. -/
def parseAlgebraic (s : String) : Except Err Expr :=
  match tokenizeAlg s.data with
  | Except.error e => Except.error e
  | Except.ok ts => parseAlgTokens (algFuel ts) ts

/-! ## Reference algebraic parser for the multiplication note

`spec.md` section 4.3 states the double parse of the right operand in
`multiplication` is "redundant but not observably incorrect; an
implementation may parse each right operand exactly once".  The `Ref`
functions below are modelled from those spec words: identical to the
source parser except that each `*`/`/` right operand is parsed exactly
once (no discarded temporary). -/

mutual

/-- Modelled from the spec: `term`, unchanged. -/
def termRef (fuel : Nat) (ts : List ATok) : Except Err (Expr × List ATok) :=
  match fuel with
  | 0 => Except.error Err.outOfFuel
  | fuel + 1 =>
      match ts with
      | ATok.num v :: rest => Except.ok (v, rest)
      | ATok.oparen :: rest =>
          match additionRef fuel rest with
          | Except.error e => Except.error e
          | Except.ok (tree, r1) =>
              match r1 with
              | ATok.cparen :: r2 => Except.ok (tree, r2)
              | _ => Except.error (Err.syntaxError "cparen")
      | _ => Except.error (Err.syntaxError "term")

/-- Modelled from the spec: `exponentiation`, unchanged. -/
def exponentiationRef (fuel : Nat) (ts : List ATok) :
    Except Err (Expr × List ATok) :=
  match fuel with
  | 0 => Except.error Err.outOfFuel
  | fuel + 1 =>
      match termRef fuel ts with
      | Except.error e => Except.error e
      | Except.ok (left, r1) =>
          match r1 with
          | ATok.op '^' :: r2 =>
              match exponentiationRef fuel r2 with
              | Except.error e => Except.error e
              | Except.ok (right, r3) =>
                  Except.ok (Expr.list [Expr.sym "^", left, right], r3)
          | _ => Except.ok (left, r1)

/-- Modelled from the spec: `multiplication` parsing each right operand
exactly once. -/
def multiplicationRef (fuel : Nat) (ts : List ATok) :
    Except Err (Expr × List ATok) :=
  match fuel with
  | 0 => Except.error Err.outOfFuel
  | fuel + 1 =>
      match exponentiationRef fuel ts with
      | Except.error e => Except.error e
      | Except.ok (left, r1) =>
          match r1 with
          | ATok.op c :: _ => multLoopRef fuel c left r1
          | _ => Except.ok (left, r1)

/-- Modelled from the spec: the multiplication loop with a single parse of
the right operand. -/
def multLoopRef (fuel : Nat) (op0 : Char) (left : Expr) (ts : List ATok) :
    Except Err (Expr × List ATok) :=
  match fuel with
  | 0 => Except.error Err.outOfFuel
  | fuel + 1 =>
      match ts with
      | ATok.op c :: rest =>
          if c = '*' || c = '/' then
            match exponentiationRef fuel rest with
            | Except.error e => Except.error e
            | Except.ok (right, r1) =>
                multLoopRef fuel op0
                  (Expr.list [Expr.sym (String.mk [op0]), left, right]) r1
          else Except.ok (left, ts)
      | _ => Except.ok (left, ts)

/-- Modelled from the spec: `addition`, over the reference multiplication. -/
def additionRef (fuel : Nat) (ts : List ATok) :
    Except Err (Expr × List ATok) :=
  match fuel with
  | 0 => Except.error Err.outOfFuel
  | fuel + 1 =>
      match multiplicationRef fuel ts with
      | Except.error e => Except.error e
      | Except.ok (left, r1) =>
          match r1 with
          | ATok.op c :: _ => addLoopRef fuel c left r1
          | _ => Except.ok (left, r1)

/-- Modelled from the spec: the addition loop, over the reference
multiplication. -/
def addLoopRef (fuel : Nat) (op0 : Char) (left : Expr) (ts : List ATok) :
    Except Err (Expr × List ATok) :=
  match fuel with
  | 0 => Except.error Err.outOfFuel
  | fuel + 1 =>
      match ts with
      | ATok.op c :: rest =>
          if c = '+' || c = '-' then
            match multiplicationRef fuel rest with
            | Except.error e => Except.error e
            | Except.ok (right, r1) =>
                addLoopRef fuel op0
                  (Expr.list [Expr.sym (String.mk [op0]), left, right]) r1
          else Except.ok (left, ts)
      | _ => Except.ok (left, ts)

end

/-- Modelled from the spec: `parse` over the reference grammar. -/
def parseAlgTokensRef (fuel : Nat) (ts : List ATok) : Except Err Expr :=
  match additionRef fuel ts with
  | Except.error e => Except.error e
  | Except.ok (tree, rest) =>
      match rest with
      | ATok.endTok :: _ => Except.ok tree
      | _ => Except.error (Err.syntaxError "end of input")

/-- Modelled from the spec: `parse_expression` over the reference grammar. -/
def parseAlgebraicRef (s : String) : Except Err Expr :=
  match tokenizeAlg s.data with
  | Except.error e => Except.error e
  | Except.ok ts => parseAlgTokensRef (algFuel ts) ts

/-! ## Symbolic front end (`parse_scheme.py`) -/

/-- `line.replace('(', ' ( ').replace(')', ' ) ')`. -/
def padParens (cs : List Char) : List Char :=
  match cs with
  | [] => []
  | c :: rest =>
      if c = '(' || c = ')' then ' ' :: c :: ' ' :: padParens rest
      else c :: padParens rest

/-- `str.split()`: split on runs of whitespace, dropping empty pieces. -/
def splitWsAux (acc : List Char) (cs : List Char) : List String :=
  match cs with
  | [] =>
      match acc with
      | [] => []
      | _ => [String.mk acc.reverse]
  | c :: rest =>
      if isWsChar c then
        match acc with
        | [] => splitWsAux [] rest
        | _ => String.mk acc.reverse :: splitWsAux [] rest
      else splitWsAux (c :: acc) rest

/-- `parse_scheme.tokenize`: pad parentheses with spaces, then split on
whitespace.  (The Python code splits line by line; since the newline is
itself whitespace dropped by `split()`, this equals one global split.) -/
def tokenizeScheme (cs : List Char) : List String :=
  splitWsAux [] (padParens cs)

mutual

/-- `parse_scheme.parse.parse_internal` (lines 50-63): one token of
lookahead; an expression is an atom, or a `(`-opened list of expressions
closed by `)`.  Returns the parsed expression and the unconsumed tokens. -/
def parseOne (fuel : Nat) (ts : List String) :
    Except Err (Expr × List String) :=
  match fuel with
  | 0 => Except.error Err.outOfFuel
  | fuel + 1 =>
      match ts with
      | [] => Except.error (Err.syntaxError "unexpected EOF")
      | t :: rest =>
          if t = "(" then parseListTail fuel [] rest
          else if t = ")" then Except.error (Err.syntaxError "unexpected cparen")
          else Except.ok (atom t, rest)

/-- The `while ts.lookahead != ')'` loop of `parse_internal`: `acc` holds
the list elements parsed so far; a lookahead of `)` pops it and closes the
list; an exhausted stream is an `unexpected EOF` (the loop sees a `None`
lookahead, recurses, and `next(ts, None)` returns `None`). -/
def parseListTail (fuel : Nat) (acc : List Expr) (ts : List String) :
    Except Err (Expr × List String) :=
  match fuel with
  | 0 => Except.error Err.outOfFuel
  | fuel + 1 =>
      match ts with
      | [] => Except.error (Err.syntaxError "unexpected EOF")
      | t :: rest =>
          if t = ")" then Except.ok (Expr.list acc, rest)
          else
            match parseOne fuel (t :: rest) with
            | Except.error e => Except.error e
            | Except.ok (e, r1) => parseListTail fuel (acc ++ [e]) r1

end

/-- Fuel bound for the symbolic parser. -/
def schemeFuel (ts : List String) : Nat :=
  2 * ts.length + 2

/-- `parse_scheme.parse`: read the *first* expression from the token
stream; tokens left over after it are not looked at. -/
def parseSchemeTokens (ts : List String) : Except Err Expr :=
  (parseOne (schemeFuel ts) ts).map Prod.fst

/-- `parse_scheme.parse_expression`. -/
def parseScheme (s : String) : Except Err Expr :=
  parseSchemeTokens (tokenizeScheme s.data)

/-! ## Grammar dispatcher (`parse.py`) -/

/-- The part of `re.match('\\(.*\\)$', s, re.MULTILINE)` after the initial
`\\(`: scan forward over non-newline characters (`.` does not match a
newline) looking for a `)` whose successor position is the end of the
string or a newline (`$` under `re.MULTILINE`). -/
def dotStarParenEol (cs : List Char) : Bool :=
  match cs with
  | [] => false
  | c :: rest =>
      if c = '\n' then false
      else (c = ')' && (rest.isEmpty || rest.head? = some '\n')) ||
        dotStarParenEol rest

/-- Whether `re.match('\\(.*\\)$', s, re.MULTILINE)` succeeds: a `(` at
position zero, then `.*\\)$` within the first line. -/
def reMatchScheme (cs : List Char) : Bool :=
  match cs with
  | c :: rest => if c = '(' then dotStarParenEol rest else false
  | [] => false

/-- The two front ends. -/
inductive FrontEnd where
  | symbolic
  | algebraic
deriving DecidableEq, Repr

/-- The routing decision of `parse.parse_expression` (`parse.py` lines
6-19). -/
def chooseFrontEnd (cs : List Char) : FrontEnd :=
  if reMatchScheme cs then FrontEnd.symbolic else FrontEnd.algebraic

/-- `parse.parse_expression`: dispatch on the regex, then parse with the
chosen front end. -/
def parseExpression (s : String) : Except Err Expr :=
  match chooseFrontEnd s.data with
  | FrontEnd.symbolic => parseScheme s
  | FrontEnd.algebraic => parseAlgebraic s

/-! ## Root environment (`special_forms.py`) -/

/-- The explicit builtin table of `make_root_environment` (`special_forms.py`
lines 15-54), keys in source order; each value is the corresponding
host-supplied callable. -/
def rootOps : List (String × Expr) :=
  [("+", Expr.builtin "+"), ("-", Expr.builtin "-"), ("*", Expr.builtin "*"),
   ("/", Expr.builtin "/"), (">", Expr.builtin ">"), ("<", Expr.builtin "<"),
   (">=", Expr.builtin ">="), ("<=", Expr.builtin "<="), ("=", Expr.builtin "="),
   ("abs", Expr.builtin "abs"), ("round", Expr.builtin "round"),
   ("mod", Expr.builtin "mod"), ("expt", Expr.builtin "expt"),
   ("cosd", Expr.builtin "cosd"), ("sind", Expr.builtin "sind"),
   ("tand", Expr.builtin "tand"), ("acosd", Expr.builtin "acosd"),
   ("asind", Expr.builtin "asind"), ("atand", Expr.builtin "atand"),
   ("atan2d", Expr.builtin "atan2d"), ("append", Expr.builtin "append"),
   ("begin", Expr.builtin "begin"), ("car", Expr.builtin "car"),
   ("cdr", Expr.builtin "cdr"), ("cons", Expr.builtin "cons"),
   ("eq?", Expr.builtin "eq?"), ("equal?", Expr.builtin "equal?"),
   ("length", Expr.builtin "length"), ("list", Expr.builtin "list"),
   ("list?", Expr.builtin "list?"), ("map", Expr.builtin "map"),
   ("max", Expr.builtin "max"), ("min", Expr.builtin "min"),
   ("not", Expr.builtin "not"), ("null?", Expr.builtin "null?"),
   ("number?", Expr.builtin "number?"), ("procedure?", Expr.builtin "procedure?"),
   ("symbol?", Expr.builtin "symbol?")]

/-- `make_root_environment` (`special_forms.py` lines 9-56): a base
environment seeded with `vars(math)` — host data passed in as `mathVars`;
every name in `vars(math)` is a Python identifier — then with the explicit
builtin table, and finally wrapped in a child environment so that `define`
calls do not clear the builtin values.  Returns the root index and store. -/
def makeRootEnvironment (mathVars : List (String × Expr)) : Nat × Store :=
  let base := mkEnv emptyStore Option.none [] []
  let s1 := update base.2 base.1 mathVars
  let s2 := update s1 base.1 rootOps
  mkEnv s2 (some base.1) [] []

/-! ## Helper lemmas -/

/-- `zip` stops at the shorter list, so zipping against a pre-truncated
argument list changes nothing. -/
theorem zipTakeLength (ps : List String) :
    ∀ xs : List Expr, List.zip ps (List.take ps.length xs) = List.zip ps xs := by
  induction ps with
  | nil => intro xs; rfl
  | cons p ps ih =>
      intro xs
      cases xs with
      | nil => rfl
      | cons x xs => simp only [List.length_cons, List.take_succ_cons,
          List.zip_cons_cons, ih]

/-! ## C1 `define` invalidation scenario -/

/-- Root environment with definitions `y := 5` and `x := y`. -/
def c1Root : Store :=
  define 10 (define 10 (mkEnv emptyStore Option.none [] []).2 0 "y" (Expr.int 5))
    0 "x" (Expr.sym "y")

/-- A long-lived child of the root (`Environment(parent=root)`). -/
def c1Child : Nat × Store := mkEnv c1Root (some 0) [] []

/-- The store after the child has looked `x` up once (and thereby cached
`x = 5` locally in the child and in the root). -/
def c1Cached : Store :=
  match getItem 20 c1Child.2 1 "x" with
  | Except.ok p => p.2
  | Except.error _ => emptyStore

/-- The store after the root redefines `y := 6`. -/
def c1Redefined : Store := define 10 c1Cached 0 "y" (Expr.int 6)

/-- The same scenario with the *intended* listener registration (the child
recorded in the root's listener list, as a strongly-referenced
`_handle_update` would behave). -/
def c1ChildLive : Nat × Store := mkEnvLive c1Root (some 0) [] []

def c1CachedLive : Store :=
  match getItem 20 c1ChildLive.2 1 "x" with
  | Except.ok p => p.2
  | Except.error _ => emptyStore

def c1RedefinedLive : Store := define 10 c1CachedLive 0 "y" (Expr.int 6)

/-- C1.  The claim is that `define` clears the defining node's value cache
*and* recursively clears every transitive listener's cache, so that a stale
cached value is never observed.  In the code as executed, the listener
registration of `Environment.__init__` stores a weak reference to a
temporary bound method, which dies immediately (see `addUpdateListener`),
so the cascade never happens: after the child has cached `x = 5` and the
root redefines `y := 6`, the root itself recomputes `x = 6` (its own cache
*is* cleared, by the direct `_handle_update` call in `define`) but the
long-lived child still serves the stale `x = 5` from its cache.  With the
intended live registration (`mkEnvLive`), the same lookup yields `6`,
which is exactly what the claim demands. -/
theorem define_invalidation_misses_live_child_c1 :
    lookupValue 20 c1Child.2 1 "x" = Except.ok (Expr.int 5) ∧
    lookupValue 20 c1Redefined 0 "x" = Except.ok (Expr.int 6) ∧
    lookupValue 20 c1Redefined 1 "x" = Except.ok (Expr.int 5) ∧
    lookupValue 20 c1RedefinedLive 1 "x" = Except.ok (Expr.int 6) := by
  exact ⟨rfl, rfl, rfl, rfl⟩

/-! ## C2 lexical scoping -/

/-- An environment in which `a = 1` (the procedure's defining scope). -/
def c2Defining : Nat × Store := mkEnv emptyStore Option.none [("a", Expr.int 1)] []

/-- A second, unrelated environment in which `a` is bound to an arbitrary
value and `f` is bound to the procedure captured over `c2Defining`. -/
def c2Caller (v : Expr) : Nat × Store :=
  mkEnv c2Defining.2 Option.none [("a", v), ("f", Expr.proc [] (Expr.sym "a") 0)] []

/-- C2.  Evaluating a `lambda` form produces a `Procedure` capturing the
evaluation-time environment (first conjunct).  Calling it from an
environment in which `a` is bound to any other value still resolves `a`
to `1`, the binding of the captured defining environment (second
conjunct); and the frame the call creates (environment index 2) has the
captured environment (index 0) as its parent, not the caller (index 1)
(third conjunct). -/
theorem lambda_lexical_scoping_c2 :
    evalValue 10 (Expr.list [Expr.sym "lambda", Expr.list [], Expr.sym "a"]) 0
        c2Defining.2 = Except.ok (Expr.proc [] (Expr.sym "a") 0) ∧
    (∀ v : Expr,
      evalValue 20 (Expr.list [Expr.sym "f"]) 1 (c2Caller v).2 =
        Except.ok (Expr.int 1)) ∧
    (∀ v : Expr,
      (evaluate 20 (Expr.list [Expr.sym "f"]) 1 (c2Caller v).2).map
          (fun p => (getEnv p.2 2).map EnvNode.parent) =
        Except.ok (some (some 0))) := by
  refine ⟨rfl, fun v => rfl, fun v => rfl⟩

/-- Witness for C2 at the concrete call-site binding `a = 2` named by the
spec scenario. -/
theorem lambda_lexical_scoping_c2_witness :
    evalValue 20 (Expr.list [Expr.sym "f"]) 1 (c2Caller (Expr.int 2)).2 =
      Except.ok (Expr.int 1) :=
  lambda_lexical_scoping_c2.2.1 (Expr.int 2)

/-! ## C4 operator symbols in additive chains -/

/-- C4.  The claim is that in a chain of additive operators every binary
node carries the operator that appeared at its position, so `1 - 2 + 3`
must parse to `[+, [-, 1, 2], 3]`.  The code binds `t = token` once before
the `while` loop of `addition`, so the second node reuses the first
operator: the actual result is `[-, [-, 1, 2], 3]` (first conjunct), which
evaluates to `-4` instead of the intended `2` (second conjunct, using the
integer `-` builtin of the root environment). -/
theorem addition_chain_operator_symbol_c4 :
    parseAlgebraic "1 - 2 + 3" =
      Except.ok (Expr.list [Expr.sym "-",
        Expr.list [Expr.sym "-", Expr.int 1, Expr.int 2], Expr.int 3]) ∧
    evalValue 20 (Expr.list [Expr.sym "-",
        Expr.list [Expr.sym "-", Expr.int 1, Expr.int 2], Expr.int 3])
      (makeRootEnvironment []).1 (makeRootEnvironment []).2 =
      Except.ok (Expr.int (-4)) := by
  exact ⟨rfl, rfl⟩

/-! ## C5 double parsing of the right operand -/

/-- C5.  The claim is that the double parse of the right operand in
`multiplication` gives the same result as a reference that parses each
right operand once.  It does not: the two parses both consume the token
iterator, so on `2*3` the second parse finds the end-of-input marker where
a term is required and raises `SyntaxError`, while the reference
implementation returns `[*, 2, 3]`. -/
theorem multiplication_double_parse_differs_c5 :
    parseAlgebraic "2*3" = Except.error (Err.syntaxError "term") ∧
    parseAlgebraicRef "2*3" =
      Except.ok (Expr.list [Expr.sym "*", Expr.int 2, Expr.int 3]) := by
  exact ⟨rfl, rfl⟩

/-! ## C6 procedure arity -/

/-- A store with one empty root environment (shared by several
scenarios). -/
def oneEnvStore : Store := (mkEnv emptyStore Option.none [] []).2

/-- C6 counterexample.  The claim says applying a `Procedure` with 1
declared parameter to 2 evaluated arguments raises a structural failure.
It does not: `zip(self.parms, args)` silently drops the surplus argument
and `((lambda (a) a) 1 2)` returns `1` normally. -/
theorem procedure_arity_unchecked_c6_counterexample :
    evalValue 20
      (Expr.list [Expr.list [Expr.sym "lambda", Expr.list [Expr.sym "a"],
        Expr.sym "a"], Expr.int 1, Expr.int 2]) 0 oneEnvStore =
      Except.ok (Expr.int 1) := by
  exact rfl

/-- C6 amended.  `Procedure.__call__` performs no arity check of any kind:
the parameter/argument `zip` truncates at the shorter list, so a call is
exactly the call on the first `parms.length` arguments (surplus arguments
are silently ignored), and a call with fewer arguments than parameters
simply leaves the missing parameters unbound — a failure surfaces only
if and when the body looks such a parameter up and no ancestor binds it,
as an unresolved-symbol `KeyError`, not a structural failure at the call
boundary (second conjunct: `((lambda (a b) b) 1)`). -/
theorem procedure_zip_truncation_c6 :
    (∀ (fuel : Nat) (store : Store) (parms : List String) (body : Expr)
        (envIdx : Nat) (args : List Expr),
      applyProc fuel store (Expr.proc parms body envIdx) args =
        applyProc fuel store (Expr.proc parms body envIdx)
          (List.take parms.length args)) ∧
    evalValue 20
      (Expr.list [Expr.list [Expr.sym "lambda",
        Expr.list [Expr.sym "a", Expr.sym "b"], Expr.sym "b"], Expr.int 1])
      0 oneEnvStore = Except.error (Err.keyError "b") := by
  constructor
  · intro fuel store parms body envIdx args
    cases fuel with
    | zero => rfl
    | succ fuel =>
        simp only [applyProc, zipTakeLength]
  · exact rfl

/-- Witness for C6 at a concrete over-application. -/
theorem procedure_zip_truncation_c6_witness :
    applyProc 10 oneEnvStore (Expr.proc ["a"] (Expr.sym "a") 0)
        [Expr.int 1, Expr.int 2] =
      applyProc 10 oneEnvStore (Expr.proc ["a"] (Expr.sym "a") 0)
        (List.take 1 [Expr.int 1, Expr.int 2]) :=
  procedure_zip_truncation_c6.1 10 oneEnvStore ["a"] (Expr.sym "a") 0
    [Expr.int 1, Expr.int 2]

/-! ## C7 `set!` target resolution -/

/-- In a well-formed store every parent index is smaller than the child
index. -/
theorem wfParentLt (st : Store) (hwf : wfStore st = true) (j : Nat)
    (node : EnvNode) (hj : getEnv st j = some node) (p : Nat)
    (hp : node.parent = some p) : p < j := by
  have hjlen : j < st.envs.length := (List.get?_eq_some.mp hj).1
  have hall := List.all_eq_true.mp hwf j (List.mem_range.mpr hjlen)
  rw [hj] at hall
  simp only [hp] at hall
  exact of_decide_eq_true hall

/-- When the chain walk finds an eligible node, `__setitem__` overwrites
exactly there. -/
theorem setItemOfNearestSome :
    ∀ (fuel : Nat) (st : Store) (i : Nat) (s : String) (v : Expr) (j : Nat),
      nearestEligible fuel st i s = some j →
      setItem fuel st i s v = Except.ok (setVal st j s v) := by
  intro fuel
  induction fuel with
  | zero =>
      intro st i s v j h
      simp [nearestEligible] at h
  | succ fuel ih =>
      intro st i s v j h
      rw [nearestEligible] at h
      rw [setItem]
      cases hge : getEnv st i with
      | none => rw [hge] at h; simp at h
      | some node =>
          rw [hge] at h
          dsimp only at h ⊢
          by_cases hc :
              ((getKey node.vals s).isSome && (getKey node.defs s).isNone) = true
          · rw [if_pos hc] at h ⊢
            simp only [Option.some.injEq] at h
            rw [h]
          · rw [if_neg hc] at h ⊢
            cases hp : node.parent with
            | none => rw [hp] at h; simp at h
            | some p =>
                rw [hp] at h
                dsimp only at h ⊢
                exact ih st p s v j h

/-- When no node of the (finite, well-formed) chain is eligible,
`__setitem__` reaches the parentless root and raises `KeyError`. -/
theorem setItemOfNearestNone :
    ∀ (fuel : Nat) (st : Store) (i : Nat) (s : String) (v : Expr),
      wfStore st = true → i < st.envs.length → i < fuel →
      nearestEligible fuel st i s = Option.none →
      setItem fuel st i s v = Except.error (Err.keyError s) := by
  intro fuel
  induction fuel with
  | zero =>
      intro st i s v _ _ hif _
      exact absurd hif (Nat.not_lt_zero i)
  | succ fuel ih =>
      intro st i s v hwf hilen hif h
      rw [nearestEligible] at h
      rw [setItem]
      have hnode : getEnv st i = some (st.envs.get ⟨i, hilen⟩) :=
        List.get?_eq_get hilen
      rw [hnode] at h
      rw [hnode]
      dsimp only at h ⊢
      by_cases hc :
          ((getKey (st.envs.get ⟨i, hilen⟩).vals s).isSome &&
            (getKey (st.envs.get ⟨i, hilen⟩).defs s).isNone) = true
      · rw [if_pos hc] at h
        simp at h
      · rw [if_neg hc] at h ⊢
        cases hp : (st.envs.get ⟨i, hilen⟩).parent with
        | none => rfl
        | some p =>
            rw [hp] at h
            dsimp only at h ⊢
            have hpi : p < i := wfParentLt st hwf i _ hnode p hp
            exact ih st p s v hwf (Nat.lt_trans hpi hilen)
              (Nat.lt_of_lt_of_le hpi (Nat.le_of_lt_succ hif)) h

/-- A store whose single root environment holds `z` only as an unevaluated
definition. -/
def defOnlyStore : Store :=
  ⟨[⟨Option.none, [("z", Expr.int 1)], [], []⟩]⟩

/-- C7.  `__setitem__` (the `set!` target resolution): it succeeds exactly
when the chain walk from `i` finds a node holding the name as a cached
value and not as a definition, and then it overwrites the value at the
nearest such node (first conjunct); on a well-formed finite chain with no
eligible node it raises `KeyError` (second conjunct).  Concretely: on an
environment where `z` was never read or added the assignment fails (third
conjunct); where `z` exists only as an unevaluated definition it also
fails (fourth conjunct); after `add` has made `z` a cached value the
assignment succeeds and a subsequent lookup returns the newly assigned
value (fifth and sixth conjuncts). -/
theorem setitem_resolution_c7 :
    (∀ (fuel : Nat) (st : Store) (i : Nat) (s : String) (v : Expr) (j : Nat),
        nearestEligible fuel st i s = some j →
        setItem fuel st i s v = Except.ok (setVal st j s v)) ∧
    (∀ (fuel : Nat) (st : Store) (i : Nat) (s : String) (v : Expr),
        wfStore st = true → i < st.envs.length → i < fuel →
        nearestEligible fuel st i s = Option.none →
        setItem fuel st i s v = Except.error (Err.keyError s)) ∧
    setItem 5 oneEnvStore 0 "z" (Expr.int 1) =
      Except.error (Err.keyError "z") ∧
    setItem 5 defOnlyStore 0 "z" (Expr.int 2) =
      Except.error (Err.keyError "z") ∧
    setItem 5 (add oneEnvStore 0 "z" (Expr.int 1)) 0 "z" (Expr.int 2) =
      Except.ok (setVal (add oneEnvStore 0 "z" (Expr.int 1)) 0 "z" (Expr.int 2)) ∧
    lookupValue 5 (setVal (add oneEnvStore 0 "z" (Expr.int 1)) 0 "z" (Expr.int 2))
      0 "z" = Except.ok (Expr.int 2) := by
  exact ⟨setItemOfNearestSome, setItemOfNearestNone, rfl, rfl, rfl, rfl⟩

/-- Witness for C7: both quantified parts applied at concrete inputs, every
hypothesis discharged by evaluation. -/
theorem setitem_resolution_c7_witness :
    setItem 3 (add oneEnvStore 0 "q" (Expr.int 7)) 0 "q" (Expr.int 9) =
      Except.ok (setVal (add oneEnvStore 0 "q" (Expr.int 7)) 0 "q" (Expr.int 9)) ∧
    setItem 3 oneEnvStore 0 "q" (Expr.int 9) =
      Except.error (Err.keyError "q") :=
  ⟨setitem_resolution_c7.1 3 (add oneEnvStore 0 "q" (Expr.int 7)) 0 "q"
      (Expr.int 9) 0 rfl,
   setitem_resolution_c7.2.1 3 oneEnvStore 0 "q" (Expr.int 9) rfl
      (by decide) (by decide) rfl⟩

/-! ## C10 frame effects of `Environment.evaluate` on `set!` forms -/

/-- Root environment holding the plain cached value `n = 1`. -/
def c10Base : Store := (mkEnv emptyStore Option.none [("n", Expr.int 1)] []).2

/-- C10 counterexample.  The claim says that for *every* expression whose
top level is a `set!` naming a symbol cached (and not defined) in the
receiver or an ancestor, `Environment.evaluate` writes the new value
through the fresh child into that ancestor's cache.  Not so when the
right-hand side itself reads the symbol: evaluating `(set! n (if n 2 3))`
on a root with `n = 1` first looks `n` up through the child, which
memoizes `n = 1` *in the child*, so the subsequent `__setitem__` finds the
child eligible and writes `n = 2` there; the root still holds `n = 1` and
the update is lost with the discarded child. -/
theorem setbang_self_read_lost_c10_counterexample :
    envEvaluate 20 c10Base 0
        (Expr.list [Expr.sym "set!", Expr.sym "n",
          Expr.list [Expr.sym "if", Expr.sym "n", Expr.int 2, Expr.int 3]]) =
      Except.ok (Expr.none,
        ⟨[⟨Option.none, [], [("n", Expr.int 1)], []⟩,
          ⟨some 0, [], [("n", Expr.int 2)], []⟩]⟩) := by
  exact rfl

/-- C10 amended.  `Environment.evaluate` is indeed not effect-free on the
receiver, but the write-through is conditional: when the top level is
`(set! var e)` and evaluating `e` in the fresh child has *not* left `var`
cached in the child, the assignment walks the receiver's chain and
overwrites the nearest node holding `var` as a cached value and not a
definition (first conjunct, for any store and expression); concretely,
`(set! n 2)` on a root with `n = 1` updates the root through the child
(second conjunct).  `define`-created bindings stay confined to the child:
evaluating `(define k 2)` adds `k` to the child only and leaves the
receiver's node untouched (third conjunct). -/
theorem setbang_write_through_c10 :
    (∀ (f : Nat) (st : Store) (i : Nat) (var : String) (e v : Expr)
        (st2 : Store) (cn : EnvNode) (j : Nat),
      evaluate (f + 1) e (mkEnv st (some i) [] []).1 (mkEnv st (some i) [] []).2 =
          Except.ok (v, st2) →
      getEnv st2 (mkEnv st (some i) [] []).1 = some cn →
      getKey cn.vals var = Option.none →
      cn.parent = some i →
      nearestEligible f st2 i var = some j →
      envEvaluate (f + 2) st i (Expr.list [Expr.sym "set!", Expr.sym var, e]) =
        Except.ok (Expr.none, setVal st2 j var v)) ∧
    envEvaluate 20 c10Base 0
        (Expr.list [Expr.sym "set!", Expr.sym "n", Expr.int 2]) =
      Except.ok (Expr.none,
        ⟨[⟨Option.none, [], [("n", Expr.int 2)], []⟩,
          ⟨some 0, [], [], []⟩]⟩) ∧
    envEvaluate 20 c10Base 0
        (Expr.list [Expr.sym "define", Expr.sym "k", Expr.int 2]) =
      Except.ok (Expr.none,
        ⟨[⟨Option.none, [], [("n", Expr.int 1)], []⟩,
          ⟨some 0, [], [("k", Expr.int 2)], []⟩]⟩) := by
  refine ⟨?_, rfl, rfl⟩
  intro f st i var e v st2 cn j h1 h2 h3 h4 h5
  rw [envEvaluate]
  try dsimp only
  rw [evaluate]
  try dsimp only
  rw [h1]
  try dsimp only
  rw [setItem]
  rw [h2]
  try dsimp only
  rw [h3]
  simp only [Option.isSome_none, Bool.false_and, Bool.false_eq_true, if_false]
  rw [h4]
  try dsimp only
  rw [setItemOfNearestSome f st2 i var v j h5]

/-- Witness for C10's quantified conjunct: `(set! n 2)` on the concrete
root store, all hypotheses discharged by evaluation. -/
theorem setbang_write_through_c10_witness :
    envEvaluate 20 c10Base 0
        (Expr.list [Expr.sym "set!", Expr.sym "n", Expr.int 2]) =
      Except.ok (Expr.none,
        setVal ⟨[⟨Option.none, [], [("n", Expr.int 1)], []⟩,
          ⟨some 0, [], [], []⟩]⟩ 0 "n" (Expr.int 2)) :=
  setbang_write_through_c10.1 18 c10Base 0 "n" (Expr.int 2) (Expr.int 2)
    ⟨[⟨Option.none, [], [("n", Expr.int 1)], []⟩, ⟨some 0, [], [], []⟩]⟩
    ⟨some 0, [], [], []⟩ 0 rfl rfl rfl rfl rfl

/-! ## C8 trailing tokens -/

/-- Appending extra tokens after a successfully parsed first expression
changes neither the expression nor the relative leftover position: the
symbolic parser never looks past what it consumes (one successful-parse
lookahead included). -/
theorem parseAppendInvariant :
    ∀ fuel : Nat,
      (∀ (ts extra : List String) (e : Expr) (rest : List String),
        parseOne fuel ts = Except.ok (e, rest) →
        parseOne fuel (ts ++ extra) = Except.ok (e, rest ++ extra)) ∧
      (∀ (acc : List Expr) (ts extra : List String) (e : Expr)
          (rest : List String),
        parseListTail fuel acc ts = Except.ok (e, rest) →
        parseListTail fuel acc (ts ++ extra) = Except.ok (e, rest ++ extra)) := by
  intro fuel
  induction fuel with
  | zero =>
      constructor
      · intro ts extra e rest h
        simp [parseOne] at h
      · intro acc ts extra e rest h
        simp [parseListTail] at h
  | succ fuel ih =>
      constructor
      · intro ts extra e rest h
        cases ts with
        | nil => simp [parseOne] at h
        | cons t r =>
            rw [List.cons_append]
            rw [parseOne] at h ⊢
            by_cases hop : t = "("
            · rw [if_pos hop] at h ⊢
              exact ih.2 [] r extra e rest h
            · rw [if_neg hop] at h ⊢
              by_cases hcp : t = ")"
              · rw [if_pos hcp] at h
                simp at h
              · rw [if_neg hcp] at h ⊢
                rw [Except.ok.injEq] at h
                rw [Prod.mk.injEq] at h
                rw [h.1, h.2]
      · intro acc ts extra e rest h
        cases ts with
        | nil => simp [parseListTail] at h
        | cons t r =>
            rw [List.cons_append]
            rw [parseListTail] at h ⊢
            by_cases hcp : t = ")"
            · rw [if_pos hcp] at h ⊢
              rw [Except.ok.injEq] at h
              rw [Prod.mk.injEq] at h
              rw [h.1, h.2]
            · rw [if_neg hcp] at h ⊢
              cases hp : parseOne fuel (t :: r) with
              | error err => rw [hp] at h; simp at h
              | ok pr =>
                  rw [hp] at h
                  dsimp only at h
                  have hp2 := ih.1 (t :: r) extra pr.1 pr.2 (by rw [hp])
                  rw [List.cons_append] at hp2
                  rw [hp2]
                  dsimp only
                  exact ih.2 (acc ++ [pr.1]) pr.2 extra e rest h

/-- C8 counterexample.  The claim says both front ends raise a
`SyntaxFailure` on trailing tokens.  The symbolic front end does not:
`parse` reads the *first* expression and returns it, ignoring everything
after it — `"(a) b"` parses to `[a]` with no failure. -/
theorem scheme_trailing_tokens_ignored_c8_counterexample :
    parseScheme "(a) b" = Except.ok (Expr.list [Expr.sym "a"]) := by
  exact rfl

/-- C8 amended.  Only the algebraic front end raises on trailing tokens:
whenever its `addition` production succeeds with a non-end-of-input token
left as the current token, `parse` raises `SyntaxError` (first conjunct).
The symbolic front end instead returns the first expression unchanged no
matter what tokens follow it (second conjunct), e.g. the tokens of
`"(1 2) 3"` parse to `[1, 2]` (third conjunct). -/
theorem trailing_tokens_c8 :
    (∀ (fuel : Nat) (ts : List ATok) (tree : Expr) (t : ATok)
        (rest : List ATok),
      addition fuel ts = Except.ok (tree, t :: rest) →
      (t = ATok.endTok → False) →
      parseAlgTokens fuel ts = Except.error (Err.syntaxError "end of input")) ∧
    (∀ (fuel : Nat) (ts extra : List String) (e : Expr) (rest : List String),
      parseOne fuel ts = Except.ok (e, rest) →
      parseOne fuel (ts ++ extra) = Except.ok (e, rest ++ extra)) ∧
    parseSchemeTokens ["(", "1", "2", ")", "3"] =
      Except.ok (Expr.list [Expr.int 1, Expr.int 2]) := by
  refine ⟨?_, fun fuel => (parseAppendInvariant fuel).1, rfl⟩
  intro fuel ts tree t rest h hne
  rw [parseAlgTokens]
  rw [h]
  cases t with
  | endTok => exact absurd rfl hne
  | op c => rfl
  | num e => rfl
  | oparen => rfl
  | cparen => rfl

/-- Witness for C8: both quantified parts at concrete token lists. -/
theorem trailing_tokens_c8_witness :
    parseAlgTokens (algFuel [ATok.num (Expr.int 1), ATok.num (Expr.int 2),
        ATok.endTok]) [ATok.num (Expr.int 1), ATok.num (Expr.int 2),
        ATok.endTok] = Except.error (Err.syntaxError "end of input") ∧
    parseOne 3 ["x", "y"] = Except.ok (Expr.sym "x", ["y"]) := by
  constructor
  · exact trailing_tokens_c8.1 _ _ (Expr.int 1) (ATok.num (Expr.int 2))
      [ATok.endTok] rfl (fun hx => nomatch hx)
  · exact trailing_tokens_c8.2.1 3 ["x"] ["y"] (Expr.sym "x") [] rfl

/-! ## C9 grammar dispatcher -/

/-- The `.*\\)$` scan succeeds exactly when the first line (the characters
before the first newline) is nonempty and ends with `)`. -/
theorem dotStarCharacterization :
    ∀ cs : List Char, dotStarParenEol cs = true ↔
      (cs.takeWhile (fun c => c ≠ '\n')).getLast? = some ')' := by
  intro cs
  induction cs with
  | nil => simp [dotStarParenEol]
  | cons c rest ih =>
      rw [dotStarParenEol]
      by_cases hnl : c = '\n'
      · subst hnl
        simp [List.takeWhile_cons]
      · rw [if_neg hnl]
        cases rest with
        | nil => simp [List.takeWhile_cons, hnl, dotStarParenEol]
        | cons r0 rr =>
            by_cases h0 : r0 = '\n'
            · subst h0
              simp [List.takeWhile_cons, hnl, dotStarParenEol]
            · simp only [List.takeWhile_cons, hnl, decide_eq_true_eq,
                decide_not, if_pos, List.head?_cons, List.isEmpty_cons] at ih ⊢
              simp only [h0] at ih ⊢
              simp only [decide_False, Bool.not_false, if_true, decide_True,
                Bool.false_eq_true, Option.some.injEq] at ih ⊢
              rw [List.getLast?_cons_cons]
              rw [← ih]
              simp [h0, hnl]

/-- Prepending a non-`)` head leaves "ends with `)`" untouched. -/
theorem getLastConsParen (a : Char) (ha : ¬a = ')') (l : List Char) :
    ((a :: l).getLast? = some ')') ↔ (l.getLast? = some ')') := by
  cases l with
  | nil => simp [ha]
  | cons b bs => rw [List.getLast?_cons_cons]

/-- C9 amended.  The dispatcher routes to the symbolic front end iff the
*first line* of the input starts with `(` and ends with `)`:
`re.match` anchors at the start, `.` does not cross a newline, and `$`
under `re.MULTILINE` also matches just before any newline — so nothing
after the first newline is ever examined, contrary to the claim's
"the string as a whole". -/
theorem dispatcher_first_line_c9 :
    ∀ cs : List Char,
      chooseFrontEnd cs = FrontEnd.symbolic ↔
        ((cs.takeWhile (fun c => c ≠ '\n')).head? = some '(' ∧
         (cs.takeWhile (fun c => c ≠ '\n')).getLast? = some ')') := by
  intro cs
  have hbase : reMatchScheme cs = true ↔
      ((cs.takeWhile (fun c => c ≠ '\n')).head? = some '(' ∧
       (cs.takeWhile (fun c => c ≠ '\n')).getLast? = some ')') := by
    cases cs with
    | nil => simp [reMatchScheme]
    | cons c rest =>
        rw [reMatchScheme]
        by_cases hc : c = '('
        · subst hc
          rw [if_pos rfl]
          rw [dotStarCharacterization rest]
          simp only [List.takeWhile_cons]
          simp only [show (decide (('(' : Char) ≠ '\n')) = true from rfl, if_true,
            List.head?_cons, Option.some.injEq, true_and]
          rw [getLastConsParen '(' (by decide) _]
        · rw [if_neg hc]
          by_cases hnl : c = '\n'
          · subst hnl
            simp [List.takeWhile_cons]
          · simp only [List.takeWhile_cons]
            have hd : (decide (c ≠ '\n')) = true := by
              simp [hnl]
            rw [hd]
            simp only [if_true, List.head?_cons, Option.some.injEq]
            constructor
            · intro hff
              exact absurd hff (by simp)
            · intro hr
              exact absurd hr.1 hc
  rw [chooseFrontEnd]
  by_cases hm : reMatchScheme cs = true
  · rw [if_pos hm]
    simp only [true_iff]
    exact hbase.mp hm
  · rw [if_neg hm]
    constructor
    · intro hsym
      exact absurd hsym (by simp)
    · intro hr
      exact absurd (hbase.mpr hr) hm
/-- C9 counterexample.  The claim is routing-to-symbolic iff the string *as
a whole* starts with `(` and ends with `)`.  `"(a)\nb"` does not end with
`)` yet is routed to the symbolic parser; `"(a\nb)"` both starts with `(`
and ends with `)` yet is routed to the algebraic parser. -/
theorem dispatcher_multiline_c9_counterexample :
    chooseFrontEnd "(a)\nb".data = FrontEnd.symbolic ∧
    "(a)\nb".data.getLast? = some 'b' ∧
    chooseFrontEnd "(a\nb)".data = FrontEnd.algebraic ∧
    "(a\nb)".data.head? = some '(' ∧
    "(a\nb)".data.getLast? = some ')' := by
  exact ⟨rfl, rfl, rfl, rfl, rfl⟩

/-- Witness for C9 at a concrete single-line input. -/
theorem dispatcher_first_line_c9_witness :
    chooseFrontEnd "(x)".data = FrontEnd.symbolic ↔
      (("(x)".data.takeWhile (fun c => c ≠ '\n')).head? = some '(' ∧
       ("(x)".data.takeWhile (fun c => c ≠ '\n')).getLast? = some ')') :=
  dispatcher_first_line_c9 "(x)".data

/-! ## C3 precedence examples -/

/-- Updating a key different from `s` does not change what `s` maps to. -/
theorem getKeySetKeyNe (q1 : String) (q2 : Expr) (s : String) (hne : q1 ≠ s) :
    ∀ m : List (String × Expr), getKey (setKey m q1 q2) s = getKey m s := by
  intro m
  induction m with
  | nil => simp [setKey, getKey, hne]
  | cons kv rest ih =>
      rw [setKey]
      by_cases hk : kv.1 = q1
      · rw [if_pos hk]
        rw [getKey, getKey]
        rw [if_neg hne, if_neg (hk ▸ hne)]
      · rw [if_neg hk]
        rw [getKey, getKey]
        by_cases hks : kv.1 = s
        · rw [if_pos hks, if_pos hks]
        · rw [if_neg hks, if_neg hks]
          exact ih

/-- Bulk-inserting pairs none of which is keyed `s` does not change what
`s` maps to. -/
theorem getKeyFoldlNone :
    ∀ (pairs m : List (String × Expr)) (s : String),
      pairs.all (fun p => p.1 ≠ s) = true →
      getKey (pairs.foldl (fun acc p => setKey acc p.1 p.2) m) s = getKey m s := by
  intro pairs
  induction pairs with
  | nil => intro m s _; rfl
  | cons q qs ih =>
      intro m s hall
      rw [List.all_cons] at hall
      rw [Bool.and_eq_true] at hall
      have hq : q.1 ≠ s := of_decide_eq_true hall.1
      show getKey (qs.foldl (fun acc p => setKey acc p.1 p.2)
        (setKey m q.1 q.2)) s = getKey m s
      rw [ih (setKey m q.1 q.2) s hall.2]
      exact getKeySetKeyNe q.1 q.2 s hq m

/-- `Environment.update` on a one-node store folds `setKey` over that
node's value cache. -/
theorem updateSingle :
    ∀ (pairs : List (String × Expr)) (pr : Option Nat)
      (d vl : List (String × Expr)) (ls : List Nat),
      update ⟨[⟨pr, d, vl, ls⟩]⟩ 0 pairs =
        ⟨[⟨pr, d, pairs.foldl (fun m p => setKey m p.1 p.2) vl, ls⟩]⟩ := by
  intro pairs
  induction pairs with
  | nil => intro pr d vl ls; rfl
  | cons q qs ih =>
      intro pr d vl ls
      show update (setVal ⟨[⟨pr, d, vl, ls⟩]⟩ 0 q.1 q.2) 0 qs = _
      have hstep : setVal ⟨[⟨pr, d, vl, ls⟩]⟩ 0 q.1 q.2 =
          ⟨[⟨pr, d, setKey vl q.1 q.2, ls⟩]⟩ := rfl
      rw [hstep]
      rw [ih pr d (setKey vl q.1 q.2) ls]
      rfl

/-- C3.  The claim gives three evaluation results for the algebraic front
end against the root environment.  The code delivers none of them:
`"2 + 3 * 4"` and `"(2+3)*4"` do not even parse (the multiplication loop
consumes the right operand twice and then demands a further term where
end-of-input stands — claim: `14` and `20`), while `"2 ^ 3 ^ 2"` parses
right-associated as claimed but its evaluation raises `KeyError`: the
parser emits the operator `Symbol` `^`, and `make_root_environment` binds
`expt` but not `^` (`vars(math)` contributes only Python identifiers, so
no choice of that host data can supply `^` either — claim: `512`). -/
theorem algebra_precedence_examples_fail_c3 :
    parseAlgebraic "2 + 3 * 4" = Except.error (Err.syntaxError "term") ∧
    parseAlgebraic "(2+3)*4" = Except.error (Err.syntaxError "term") ∧
    parseAlgebraic "2 ^ 3 ^ 2" =
      Except.ok (Expr.list [Expr.sym "^", Expr.int 2,
        Expr.list [Expr.sym "^", Expr.int 3, Expr.int 2]]) ∧
    (∀ mathVars : List (String × Expr),
      mathVars.all (fun p => p.1 ≠ "^") = true →
      ∀ f : Nat,
        evalValue (f + 4)
          (Expr.list [Expr.sym "^", Expr.int 2,
            Expr.list [Expr.sym "^", Expr.int 3, Expr.int 2]])
          (makeRootEnvironment mathVars).1 (makeRootEnvironment mathVars).2 =
        Except.error (Err.keyError "^")) := by
  refine ⟨rfl, rfl, rfl, ?_⟩
  intro mathVars hall f
  have hmk : makeRootEnvironment mathVars =
      (1, ⟨[⟨Option.none, [],
        rootOps.foldl (fun m p => setKey m p.1 p.2)
          (mathVars.foldl (fun m p => setKey m p.1 p.2) []), []⟩,
        ⟨some 0, [], [], []⟩]⟩) := by
    rw [makeRootEnvironment]
    try dsimp only
    rw [show mkEnv emptyStore Option.none [] [] =
      (0, (⟨[⟨Option.none, [], [], []⟩]⟩ : Store)) from rfl]
    try dsimp only
    rw [updateSingle mathVars Option.none [] [] []]
    rw [updateSingle rootOps Option.none [] _ []]
    rfl
  rw [hmk]
  have hV : getKey (rootOps.foldl (fun m p => setKey m p.1 p.2)
      (mathVars.foldl (fun m p => setKey m p.1 p.2) [])) "^" = Option.none := by
    rw [getKeyFoldlNone rootOps _ "^" (by decide)]
    rw [getKeyFoldlNone mathVars [] "^" hall]
    rfl
  have g0 : getItem (f + 1)
      (⟨[⟨Option.none, [],
        rootOps.foldl (fun m p => setKey m p.1 p.2)
          (mathVars.foldl (fun m p => setKey m p.1 p.2) []), []⟩,
        ⟨some 0, [], [], []⟩]⟩ : Store) 0 "^" =
      Except.error (Err.keyError "^") := by
    rw [getItem]
    try dsimp only [getEnv, List.get?]
    rw [hV]
    rfl
  have g1 : getItem (f + 2)
      (⟨[⟨Option.none, [],
        rootOps.foldl (fun m p => setKey m p.1 p.2)
          (mathVars.foldl (fun m p => setKey m p.1 p.2) []), []⟩,
        ⟨some 0, [], [], []⟩]⟩ : Store) 1 "^" =
      Except.error (Err.keyError "^") := by
    rw [getItem]
    try dsimp only [getEnv, List.get?]
    rw [g0]
    rfl
  have g2 : evaluate (f + 3) (Expr.sym "^") 1
      (⟨[⟨Option.none, [],
        rootOps.foldl (fun m p => setKey m p.1 p.2)
          (mathVars.foldl (fun m p => setKey m p.1 p.2) []), []⟩,
        ⟨some 0, [], [], []⟩]⟩ : Store) =
      Except.error (Err.keyError "^") := by
    rw [evaluate]
    exact g1
  rw [evalValue]
  rw [evaluate]
  try dsimp only
  rw [g2]
  · rfl
  all_goals intro hx
  all_goals simp at hx

/-- Witness for C3 at a concrete sample of host math data. -/
theorem algebra_precedence_examples_fail_c3_witness :
    evalValue (0 + 4)
      (Expr.list [Expr.sym "^", Expr.int 2,
        Expr.list [Expr.sym "^", Expr.int 3, Expr.int 2]])
      (makeRootEnvironment [("pi", Expr.floatRaw "3.141592653589793")]).1
      (makeRootEnvironment [("pi", Expr.floatRaw "3.141592653589793")]).2 =
      Except.error (Err.keyError "^") :=
  algebra_precedence_examples_fail_c3.2.2.2
    [("pi", Expr.floatRaw "3.141592653589793")] (by decide) 0


end PyScheme
